import Mathlib

/-!
Verification development for the zaproxy HTTP proxy.

Part 1 models `http_proxy/http_proxy_auth.go` and the proxy handler of
`cmd/zaproxy/cmd/http.go`.  Go strings in this module are modelled as byte
lists (`List Nat`), since the auth code works on raw bytes (base64 decoding,
byte-wise `strings.Cut`, byte lengths).  Time is modelled as a `Nat` tick
count (nanoseconds); the map of the auth cache is modelled as an association
list with replace-on-insert semantics.
-/

namespace ZapAuth

/-- Bytes of an ASCII Lean string, to write Go byte strings conveniently. -/
def gostr (s : String) : List Nat := s.toList.map Char.toNat

/-- ASCII lower-casing of a byte, as used by a byte-level `strings.EqualFold`
against the all-ASCII pattern `"Basic "`. -/
def asciiLower (b : Nat) : Nat := if 65 ≤ b ∧ b ≤ 90 then b + 32 else b

/-- Byte-level case-insensitive equality.  `strings.EqualFold` folds runes,
but against the all-ASCII pattern `"Basic "` a rune-level fold succeeds
exactly when the byte-level ASCII fold does (no non-ASCII rune folds to any
character of `"Basic "` within a six-byte window). -/
def asciiEqFold : List Nat → List Nat → Bool
  | [], [] => true
  | a :: as, b :: bs => (asciiLower a = asciiLower b : Bool) && asciiEqFold as bs
  | _, _ => false

/-- Value of one base64 alphabet byte (standard encoding). -/
def b64Val (b : Nat) : Option Nat :=
  if 65 ≤ b ∧ b ≤ 90 then some (b - 65)
  else if 97 ≤ b ∧ b ≤ 122 then some (b - 71)
  else if 48 ≤ b ∧ b ≤ 57 then some (b + 4)
  else if b = 43 then some 62
  else if b = 47 then some 63
  else none

/-- Decode base64 quanta of four bytes, with `=` (byte 61) padding allowed
only in the final quantum, as `encoding/base64.StdEncoding` does (non-strict:
trailing bits are discarded without a zero check). -/
def decodeGroups : List Nat → Option (List Nat)
  | [] => some []
  | a :: b :: c :: d :: rest =>
    match b64Val a, b64Val b with
    | some x, some y =>
      if c = 61 then
        if d = 61 ∧ rest = [] then some [x * 4 + y / 16] else none
      else
        match b64Val c with
        | some z =>
          if d = 61 then
            if rest = [] then some [x * 4 + y / 16, y % 16 * 16 + z / 4] else none
          else
            match b64Val d with
            | some w =>
              match decodeGroups rest with
              | some tl => some ((x * 4 + y / 16) :: (y % 16 * 16 + z / 4) :: (z % 4 * 64 + w) :: tl)
              | none => none
            | none => none
        | none => none
    | _, _ => none
  | _ => none

/-- Model of `base64.StdEncoding.DecodeString`: carriage returns and newlines are
ignored, then whole quanta are decoded. -/
def decodeBase64 (s : List Nat) : Option (List Nat) :=
  decodeGroups (s.filter fun b => !(b = 10 : Bool) && !(b = 13 : Bool))

/-- Model of `strings.Cut(cs, ":")` on bytes: split at the first colon (byte 58). -/
def cutColon : List Nat → Option (List Nat × List Nat)
  | [] => none
  | b :: rest =>
    if b = 58 then some ([], rest)
    else
      match cutColon rest with
      | some (u, p) => some (b :: u, p)
      | none => none

/-- Definition `isValidCredentials` from http_proxy_auth.go: non-empty username of at
most 64 bytes, password of at most 128 bytes, and neither contains a NUL,
LF or CR byte. -/
def isValidCredentials (username password : List Nat) : Bool :=
  (0 < username.length : Bool) && (username.length ≤ 64 : Bool) &&
  (password.length ≤ 128 : Bool) &&
  !(username.any fun b => (b = 0 : Bool) || (b = 10 : Bool) || (b = 13 : Bool)) &&
  !(password.any fun b => (b = 0 : Bool) || (b = 10 : Bool) || (b = 13 : Bool))

/-- The byte string `"Basic "`. -/
def basicPrefixBytes : List Nat := gostr "Basic "

/-- Definition `parseBasicAuth` from http_proxy_auth.go. -/
def parseBasicAuth (auth : List Nat) : List Nat × List Nat × Bool :=
  if auth.length < 6 then ([], [], false)
  else if !asciiEqFold (auth.take 6) basicPrefixBytes then ([], [], false)
  else
    match decodeBase64 (auth.drop 6) with
    | none => ([], [], false)
    | some c =>
      match cutColon c with
      | none => ([], [], false)
      | some (u, p) => if isValidCredentials u p then (u, p, true) else ([], [], false)

/-- Structure `authEntry` from http_proxy_auth.go. -/
structure AuthEntry where
  valid : Bool
  username : List Nat
  password : List Nat
  expireAt : Nat
deriving DecidableEq

/-- The auth cache map, keyed by the raw credential token. -/
abbrev AuthCacheMap := List (List Nat × AuthEntry)

/-- Map lookup. -/
def lookupAuth : AuthCacheMap → List Nat → Option AuthEntry
  | [], _ => none
  | (k, e) :: rest, a => if k = a then some e else lookupAuth rest a

/-- Remove a key from the map. -/
def eraseAuth : AuthCacheMap → List Nat → AuthCacheMap
  | [], _ => []
  | (k, e) :: rest, a => if k = a then eraseAuth rest a else (k, e) :: eraseAuth rest a

/-- Constant `cacheDuration = 5 * time.Minute`, in nanoseconds. -/
def cacheDuration : Nat := 5 * 60 * 1000000000

/-- Definition `cacheAuthResult` from http_proxy_auth.go: store the entry with
`expireAt = now + cacheDuration`, replacing any previous entry. -/
def cacheAuthResult (c : AuthCacheMap) (now : Nat) (auth username password : List Nat)
    (valid : Bool) : AuthCacheMap :=
  (auth, ⟨valid, username, password, now + cacheDuration⟩) :: eraseAuth c auth

/-- Observable outcome of one `GetBasicAuth` call: the returned triple, the
cache state after the call, whether the answer was served from the cache,
and whether the token was (re-)decoded. -/
structure GetBasicAuthResult where
  username : List Nat
  password : List Nat
  ok : Bool
  cache : AuthCacheMap
  usedCache : Bool
  didDecode : Bool
deriving DecidableEq

/-- The decode-and-cache path of `GetBasicAuth` (cache miss or expired). -/
def getBasicAuthMiss (c : AuthCacheMap) (now : Nat) (auth : List Nat) : GetBasicAuthResult :=
  let r := parseBasicAuth auth
  if r.2.2 then ⟨r.1, r.2.1, true, cacheAuthResult c now auth r.1 r.2.1 true, false, true⟩
  else ⟨r.1, r.2.1, false, cacheAuthResult c now auth [] [] false, false, true⟩

/-- Definition `GetBasicAuth` from http_proxy_auth.go, with the cache state and the
current time passed explicitly.  An empty header returns immediately; a
cached entry is served only when `now` is strictly before its `expireAt`
(`time.Now().Before(entry.expireAt)`); otherwise the token is parsed and the
result cached. -/
def getBasicAuth (c : AuthCacheMap) (now : Nat) (auth : List Nat) : GetBasicAuthResult :=
  if auth = [] then ⟨[], [], false, c, false, false⟩
  else
    match lookupAuth c auth with
    | some entry =>
      if now < entry.expireAt then
        if entry.valid then ⟨entry.username, entry.password, true, c, true, false⟩
        else ⟨[], [], false, c, true, false⟩
      else getBasicAuthMiss c now auth
    | none => getBasicAuthMiss c now auth

/-- Model of `subtle.ConstantTimeCompare`: 0 when the lengths differ, otherwise 1
exactly when the accumulated or of the byte-wise xors is zero. -/
def constantTimeCompare (x y : List Nat) : Nat :=
  if x.length = y.length then
    if (List.zipWith Nat.xor x y).foldl Nat.lor 0 = 0 then 1 else 0
  else 0

/-- Definition `CompareCredentials` from http_proxy_auth.go. -/
def CompareCredentials (inputUser inputPass expectedUser expectedPass : List Nat) : Bool :=
  (constantTimeCompare inputUser expectedUser = 1 : Bool) &&
  (constantTimeCompare inputPass expectedPass = 1 : Bool)

/-- Observable effects of one call of the proxy handler in
`cmd/zaproxy/cmd/http.go`. -/
structure HandlerTrace where
  wrote401 : Bool
  forwarded : Bool
  cache : AuthCacheMap
deriving DecidableEq

/-- The request handler built in `startServer` (http.go).  `hostParseOk`
models whether `url.Parse("http://" + r.Host)` succeeds; on failure the
handler panics (`none`).  Note the handler writes a 401 only when the
supplied username AND password both differ from the configured ones, and it
never returns early: it always builds the reverse proxy and forwards. -/
def startServerHandler (username password : List Nat) (c : AuthCacheMap) (now : Nat)
    (authHeader : List Nat) (hostParseOk : Bool) : Option HandlerTrace :=
  let s := getBasicAuth c now authHeader
  let wrote401 :=
    if s.ok then
      if username ≠ s.username ∧ password ≠ s.password then true else false
    else true
  if hostParseOk then some ⟨wrote401, true, s.cache⟩ else none

end ZapAuth

/-!
Part 2 models the reverse-proxy file of the repository (the `http_proxy`
package file containing `NewReverseProxy`, `singleJoiningSlash`,
`removeHeaders`, `hopHeaders` and `isClosedConnError`).  Go strings here are
modelled as character lists (`List Char`); every character that matters to
these functions is ASCII, where bytes and characters coincide.  `http.Header`
is modelled as an association list from header name to value list, with
`Get`/`Del`/`Set` canonicalizing their key argument as
`textproto.CanonicalMIMEHeaderKey` does.
-/

namespace ZapProxy

/-- Character list of a Lean string literal. -/
def gs (s : String) : List Char := s.toList

/-- Valid header-field bytes (`validHeaderFieldByte` in net/textproto). -/
def isTokenChar (c : Char) : Bool :=
  c.isAlpha || c.isDigit ||
  [Char.ofNat 33, Char.ofNat 35, Char.ofNat 36, Char.ofNat 37, Char.ofNat 38,
   Char.ofNat 39, Char.ofNat 42, Char.ofNat 43, Char.ofNat 45, Char.ofNat 46,
   Char.ofNat 94, Char.ofNat 95, Char.ofNat 96, Char.ofNat 124,
   Char.ofNat 126].contains c

/-- Case mapping of `CanonicalMIMEHeaderKey`: uppercase the first letter and
every letter following a hyphen, lowercase the rest. -/
def canonCase : Bool → List Char → List Char
  | _, [] => []
  | upper, c :: rest =>
    (if upper then c.toUpper else c.toLower) :: canonCase (c = Char.ofNat 45) rest

/-- Model of `textproto.CanonicalMIMEHeaderKey`: left unchanged when any byte is not a
valid header-field byte, otherwise canonicalized. -/
def canonicalKey (k : List Char) : List Char :=
  if k.all isTokenChar then canonCase true k else k

/-- Model of `http.Header`: header name to list of values. -/
abbrev Header := List (List Char × List (List Char))

/-- Raw map access (no canonicalization), as `h[key]` in Go. -/
def headerLookup : Header → List Char → Option (List (List Char))
  | [], _ => none
  | (k, v) :: rest, key => if k = key then some v else headerLookup rest key

/-- Remove a key from the header map. -/
def headerErase : Header → List Char → Header
  | [], _ => []
  | (k, v) :: rest, key =>
    if k = key then headerErase rest key else (k, v) :: headerErase rest key

/-- Model of `Header.Get`: first value stored under the canonicalized key, or the
empty string. -/
def headerGet (h : Header) (key : List Char) : List Char :=
  match headerLookup h (canonicalKey key) with
  | some (v :: _) => v
  | _ => []

/-- Model of `Header.Del`: remove the canonicalized key. -/
def headerDel (h : Header) (key : List Char) : Header :=
  headerErase h (canonicalKey key)

/-- Model of `Header.Set`: replace the values under the canonicalized key by the one
given value. -/
def headerSet (h : Header) (key val : List Char) : Header :=
  (canonicalKey key, [val]) :: headerErase h (canonicalKey key)

/-- Whether the raw key is present in the map (`_, ok := h[key]`). -/
def headerHasKey (h : Header) (key : List Char) : Bool :=
  (headerLookup h key).isSome

/-- Model of `unicode.IsSpace` restricted to Latin-1, which is what `strings.TrimSpace`
consults for these header tokens. -/
def goIsSpace (c : Char) : Bool :=
  [Char.ofNat 9, Char.ofNat 10, Char.ofNat 11, Char.ofNat 12, Char.ofNat 13,
   Char.ofNat 32, Char.ofNat 133, Char.ofNat 160].contains c

/-- Model of `strings.TrimSpace`. -/
def trimSpace (s : List Char) : List Char :=
  ((s.dropWhile goIsSpace).reverse.dropWhile goIsSpace).reverse

/-- Model of `strings.Split(s, ",")`. -/
def splitCommaAux : List Char → List Char → List (List Char)
  | [], acc => [acc.reverse]
  | c :: rest, acc =>
    if c = Char.ofNat 44 then acc.reverse :: splitCommaAux rest []
    else splitCommaAux rest (c :: acc)

def splitComma (s : List Char) : List (List Char) := splitCommaAux s []

/-- Definition `hopHeaders` from the proxy file. -/
def hopHeaders : List (List Char) :=
  [gs "Connection", gs "Proxy-Connection", gs "Keep-Alive", gs "Proxy-Authenticate",
   gs "Proxy-Authorization", gs "Te", gs "Trailer", gs "Transfer-Encoding", gs "Upgrade"]

/-- One step of the `Connection`-token loop of `removeHeaders`: trim the
token and delete the header it names when the trimmed token is non-empty. -/
def connTokenStep (acc : Header) (f : List Char) : Header :=
  if trimSpace f ≠ [] then headerDel acc (trimSpace f) else acc

/-- One step of the hop-by-hop loop of `removeHeaders`: delete the header
when its current `Get` value is non-empty. -/
def hopStep (acc : Header) (k : List Char) : Header :=
  if headerGet acc k ≠ [] then headerDel acc k else acc

/-- Definition `removeHeaders` from the proxy file: first delete every header named by
a trimmed non-empty comma-token of the `Connection` value, then delete every
hop-by-hop header whose `Get` value is non-empty. -/
def removeHeaders (h : Header) : Header :=
  let h1 :=
    if headerGet h (gs "Connection") ≠ [] then
      (splitComma (headerGet h (gs "Connection"))).foldl connTokenStep h
    else h
  hopHeaders.foldl hopStep h1

/-- Definition `singleJoiningSlash` from the proxy file. -/
def singleJoiningSlash (a b : List Char) : List Char :=
  let aslash := a.getLast? = some (Char.ofNat 47)
  let bslash := b.head? = some (Char.ofNat 47)
  if aslash ∧ bslash then a ++ b.tail
  else if ¬aslash ∧ ¬bslash then a ++ Char.ofNat 47 :: b
  else a ++ b

/-- The query merge inlined in the director of `NewReverseProxy`:
`targetQuery + reqQuery` when either is empty, else joined with `&`. -/
def mergeRawQuery (targetQuery reqQuery : List Char) : List Char :=
  if targetQuery = [] ∨ reqQuery = [] then targetQuery ++ reqQuery
  else targetQuery ++ Char.ofNat 38 :: reqQuery

/-- The fields of `url.URL` used by the director. -/
structure URL where
  scheme : List Char
  host : List Char
  path : List Char
  rawQuery : List Char
deriving DecidableEq

/-- The fields of `http.Request` used by the director. -/
structure Request where
  url : URL
  host : List Char
  header : Header
deriving DecidableEq

/-- The director closure built by `NewReverseProxy`: rewrite scheme, host and
path, force `req.Host` to the rewritten URL host, merge the queries, and when
the raw `"User-Agent"` key is absent set it to the empty string. -/
def director (target : URL) (req : Request) : Request :=
  let u : URL :=
    { scheme := target.scheme
      host := target.host
      path := singleJoiningSlash target.path req.url.path
      rawQuery := mergeRawQuery target.rawQuery req.url.rawQuery }
  let hdr :=
    if headerHasKey req.header (gs "User-Agent") then req.header
    else headerSet req.header (gs "User-Agent") []
  { url := u, host := u.host, header := hdr }

/-- The Go error values distinguished by `isClosedConnError`: `nil`, the
`io` sentinel errors, a `*net.OpError` (with its `Timeout()`/`Temporary()`
results, the errno of a wrapped `*os.SyscallError`, and its message), and a
plain error carrying a message. -/
inductive GoErr where
  | nilErr
  | eof
  | errClosedPipe
  | errUnexpectedEOF
  | opErr (timeout temporary : Bool) (errno : Option Nat) (msg : List Char)
  | errStr (msg : List Char)
deriving DecidableEq

/-- Whether `pre` is a prefix of `s`. -/
def hasPrefixList (s pre : List Char) : Bool :=
  match pre, s with
  | [], _ => true
  | _ :: _, [] => false
  | p :: ps, c :: cs => (p = c : Bool) && hasPrefixList cs ps

/-- Model of `strings.Contains`. -/
def goContains (s sub : List Char) : Bool :=
  match s with
  | [] => hasPrefixList [] sub
  | c :: cs => hasPrefixList (c :: cs) sub || goContains cs sub

/-- The cascade of `strings.Contains` checks in `isClosedConnError`, applied
to `err.Error()`. -/
def closedConnStringCheck (str : List Char) : Bool :=
  goContains str (gs "http2: client conn not usable") ||
  goContains str (gs "http2: server sent GOAWAY") ||
  goContains str (gs "tls: use of closed connection") ||
  goContains str (gs "tls: protocol is shutdown") ||
  goContains str (gs "use of closed network connection") ||
  goContains str (gs "connection reset by peer") ||
  goContains str (gs "broken pipe") ||
  goContains str (gs "i/o timeout") ||
  goContains str (gs "connection refused") ||
  goContains str (gs "connection timed out") ||
  goContains str (gs "EOF") ||
  goContains str (gs "write: broken pipe") ||
  goContains str (gs "protocol wrong type for socket") ||
  goContains str (gs "network connection closed") ||
  goContains str (gs "wsarecv: An existing connection was forcibly closed") ||
  goContains str (gs "readfrom: connection refused")

/-- Values of `syscall.ECONNRESET` and `syscall.EPIPE` on Linux. -/
def ECONNRESET : Nat := 104
def EPIPE : Nat := 32

/-- Definition `isClosedConnError` from the proxy file: `nil` is not a closed-connection
error; the three `io` sentinels are; a `*net.OpError` that reports timeout or
temporary, or wraps ECONNRESET/EPIPE, is; otherwise the message is matched
against the allow-list of connection-closed phrases. -/
def isClosedConnError (e : GoErr) : Bool :=
  match e with
  | .nilErr => false
  | .eof => true
  | .errClosedPipe => true
  | .errUnexpectedEOF => true
  | .opErr tmo tmp errno msg =>
    if tmo || tmp then true
    else if errno = some ECONNRESET ∨ errno = some EPIPE then true
    else closedConnStringCheck msg
  | .errStr msg => closedConnStringCheck msg

end ZapProxy

/-! ### Helper lemmas -/

namespace ZapAuth

/-- A bitwise or of naturals is zero exactly when both operands are zero. -/
lemma lorZero (a b : ℕ) : Nat.lor a b = 0 ↔ a = 0 ∧ b = 0 := by
  constructor
  · intro h
    have h0 : a ||| b = 0 := h
    have hb : ∀ i, a.testBit i = false ∧ b.testBit i = false := by
      intro i
      have h2 := congrArg (fun n => Nat.testBit n i) h0
      simp only [Nat.testBit_lor, Nat.zero_testBit, Bool.or_eq_false_iff] at h2
      exact h2
    constructor
    · exact Nat.eq_of_testBit_eq fun i => by simp [(hb i).1, Nat.zero_testBit]
    · exact Nat.eq_of_testBit_eq fun i => by simp [(hb i).2, Nat.zero_testBit]
  · rintro ⟨rfl, rfl⟩
    rfl

/-- A left fold of bitwise or is zero exactly when the seed and every list
element are zero. -/
lemma foldlLor_eq_zero (l : List ℕ) : ∀ a, l.foldl Nat.lor a = 0 ↔ a = 0 ∧ ∀ v ∈ l, v = 0 := by
  induction l with
  | nil => intro a; simp
  | cons x xs ih =>
    intro a
    rw [List.foldl_cons, ih, lorZero]
    simp only [List.mem_cons]
    constructor
    · rintro ⟨⟨h1, h2⟩, h3⟩
      exact ⟨h1, fun v hv => hv.elim (fun hvx => hvx ▸ h2) (h3 v)⟩
    · rintro ⟨h1, h2⟩
      exact ⟨⟨h1, h2 x (Or.inl rfl)⟩, fun v hv => h2 v (Or.inr hv)⟩

/-- For equal-length lists, the byte-wise xors are all zero exactly when the
lists are equal. -/
lemma zipXor_eq_zero (x : List ℕ) : ∀ y : List ℕ, x.length = y.length →
    ((∀ v ∈ List.zipWith Nat.xor x y, v = 0) ↔ x = y) := by
  induction x with
  | nil =>
    intro y h
    cases y with
    | nil => simp
    | cons b bs => simp at h
  | cons a as ih =>
    intro y h
    cases y with
    | nil => simp at h
    | cons b bs =>
      have hlen : as.length = bs.length := by simpa using h
      have hxor : a.xor b = 0 ↔ a = b := Nat.xor_eq_zero
      simp only [List.zipWith_cons_cons, List.forall_mem_cons]
      rw [hxor, ih bs hlen, List.cons.injEq]

/-- The comparison `subtle.ConstantTimeCompare` returns 1 exactly on equal byte strings. -/
lemma ctc_eq_one_iff (x y : List ℕ) : constantTimeCompare x y = 1 ↔ x = y := by
  unfold constantTimeCompare
  by_cases hl : x.length = y.length
  · rw [if_pos hl]
    by_cases hz : (List.zipWith Nat.xor x y).foldl Nat.lor 0 = 0
    · rw [if_pos hz]
      have hall := (foldlLor_eq_zero _ 0).mp hz
      exact ⟨fun _ => (zipXor_eq_zero x y hl).mp hall.2, fun _ => rfl⟩
    · rw [if_neg hz]
      constructor
      · intro h01
        exact absurd h01 (by omega)
      · intro hxy
        exact absurd ((foldlLor_eq_zero _ 0).mpr
          ⟨rfl, (zipXor_eq_zero x y hl).mpr hxy⟩) hz
  · rw [if_neg hl]
    constructor
    · intro h01
      exact absurd h01 (by omega)
    · intro hxy
      exact absurd (hxy ▸ rfl) hl

end ZapAuth

namespace ZapProxy

/-- The target base path with one trailing slash removed, when present. -/
def stripTrailingSlash (a : List Char) : List Char :=
  if a.getLast? = some (Char.ofNat 47) then a.dropLast else a

/-- The inbound path with one leading slash removed, when present. -/
def stripLeadingSlash (b : List Char) : List Char :=
  if b.head? = some (Char.ofNat 47) then b.tail else b

end ZapProxy

namespace ZapProxy

/-- Looking a key up after erasing a key. -/
lemma headerLookup_erase (h : Header) (k j : List Char) :
    headerLookup (headerErase h k) j = if j = k then none else headerLookup h j := by
  induction h with
  | nil => simp [headerErase, headerLookup]
  | cons p rest ih =>
    obtain ⟨k2, v⟩ := p
    by_cases hk : k2 = k
    · subst hk
      rw [headerErase, if_pos rfl, ih]
      by_cases hj : j = k2
      · simp [hj]
      · have hj2 : ¬ k2 = j := fun h2 => hj h2.symm
        simp [hj, headerLookup, hj2]
    · rw [headerErase, if_neg hk]
      by_cases hj : k2 = j
      · subst hj
        simp [headerLookup, fun h => hk (h : k2 = k)]
      · simp [headerLookup, hj, ih]

/-- The `Connection`-token step only ever erases; it preserves absence. -/
lemma connTokenStep_none (acc : Header) (t j : List Char)
    (h : headerLookup acc j = none) : headerLookup (connTokenStep acc t) j = none := by
  unfold connTokenStep headerDel
  split
  · rw [headerLookup_erase]
    split <;> simp [h]
  · exact h

/-- The hop-by-hop step preserves absence. -/
lemma hopStep_none (acc : Header) (t j : List Char)
    (h : headerLookup acc j = none) : headerLookup (hopStep acc t) j = none := by
  unfold hopStep headerDel
  split
  · rw [headerLookup_erase]
    split <;> simp [h]
  · exact h

/-- Each step either preserves a key's binding or removes it. -/
lemma connTokenStep_or (acc : Header) (t j : List Char) :
    headerLookup (connTokenStep acc t) j = headerLookup acc j ∨
    headerLookup (connTokenStep acc t) j = none := by
  unfold connTokenStep headerDel
  split
  · rw [headerLookup_erase]
    split
    · exact Or.inr rfl
    · exact Or.inl rfl
  · exact Or.inl rfl

lemma hopStep_or (acc : Header) (t j : List Char) :
    headerLookup (hopStep acc t) j = headerLookup acc j ∨
    headerLookup (hopStep acc t) j = none := by
  unfold hopStep headerDel
  split
  · rw [headerLookup_erase]
    split
    · exact Or.inr rfl
    · exact Or.inl rfl
  · exact Or.inl rfl

/-- The token fold preserves absence of a key. -/
lemma connTokenFold_none (l : List (List Char)) : ∀ (acc : Header) (j : List Char),
    headerLookup acc j = none → headerLookup (l.foldl connTokenStep acc) j = none := by
  induction l with
  | nil => intro acc j h; exact h
  | cons x xs ih =>
    intro acc j h
    exact ih _ _ (connTokenStep_none acc x j h)

/-- The hop fold preserves absence of a key. -/
lemma hopFold_none (l : List (List Char)) : ∀ (acc : Header) (j : List Char),
    headerLookup acc j = none → headerLookup (l.foldl hopStep acc) j = none := by
  induction l with
  | nil => intro acc j h; exact h
  | cons x xs ih =>
    intro acc j h
    exact ih _ _ (hopStep_none acc x j h)

/-- The token fold either preserves a key's binding or removes it. -/
lemma connTokenFold_or (l : List (List Char)) : ∀ (acc : Header) (j : List Char),
    headerLookup (l.foldl connTokenStep acc) j = headerLookup acc j ∨
    headerLookup (l.foldl connTokenStep acc) j = none := by
  induction l with
  | nil => intro acc j; exact Or.inl rfl
  | cons x xs ih =>
    intro acc j
    rcases ih (connTokenStep acc x) j with h | h
    · rcases connTokenStep_or acc x j with h2 | h2
      · exact Or.inl (by rw [List.foldl_cons, h, h2])
      · exact Or.inr (by rw [List.foldl_cons, h, h2])
    · exact Or.inr (by rw [List.foldl_cons, h])

/-- The value `headerGet` only depends on the binding of the canonicalized key. -/
lemma headerGet_congr (h1 h2 : Header) (k : List Char)
    (h : headerLookup h1 (canonicalKey k) = headerLookup h2 (canonicalKey k)) :
    headerGet h1 k = headerGet h2 k := by
  unfold headerGet
  rw [h]

/-- A token of the `Connection` loop is deleted by the fold. -/
lemma connTokenFold_deletes (l : List (List Char)) : ∀ (acc : Header) (f : List Char),
    f ∈ l → trimSpace f ≠ [] →
    headerLookup (l.foldl connTokenStep acc) (canonicalKey (trimSpace f)) = none := by
  induction l with
  | nil => intro acc f hf; exact absurd hf (List.not_mem_nil f)
  | cons x xs ih =>
    intro acc f hf htrim
    rcases List.mem_cons.mp hf with rfl | hf2
    · rw [List.foldl_cons]
      apply connTokenFold_none
      unfold connTokenStep headerDel
      rw [if_pos htrim, headerLookup_erase, if_pos rfl]
    · rw [List.foldl_cons]
      exact ih _ _ hf2 htrim

/-- A hop-by-hop key whose binding is absent, or whose `Get` value is
non-empty, ends up absent after the hop fold. -/
lemma hopFold_deletes (l : List (List Char)) : ∀ (acc : Header) (k : List Char),
    k ∈ l →
    (headerLookup acc (canonicalKey k) = none ∨ headerGet acc k ≠ []) →
    headerLookup (l.foldl hopStep acc) (canonicalKey k) = none := by
  induction l with
  | nil => intro acc k hk; exact absurd hk (List.not_mem_nil k)
  | cons x xs ih =>
    intro acc k hk hpre
    rcases List.mem_cons.mp hk with rfl | hk2
    · rw [List.foldl_cons]
      apply hopFold_none
      by_cases hget : headerGet acc k ≠ []
      · unfold hopStep headerDel
        rw [if_pos hget, headerLookup_erase, if_pos rfl]
      · rcases hpre with hnone | hget2
        · unfold hopStep headerDel
          rw [if_neg hget]
          exact hnone
        · exact absurd hget2 hget
    · rw [List.foldl_cons]
      apply ih
      · exact hk2
      · rcases hopStep_or acc x (canonicalKey k) with heq | hnone
        · rcases hpre with hnone | hget
          · exact Or.inl (heq.trans hnone)
          · exact Or.inr (by rw [headerGet_congr _ acc k heq]; exact hget)
        · exact Or.inl hnone

/-- The token fold does not touch keys not named by any trimmed non-empty
token. -/
lemma connTokenFold_preserves (l : List (List Char)) : ∀ (acc : Header) (j : List Char),
    (∀ f ∈ l, trimSpace f ≠ [] → canonicalKey (trimSpace f) ≠ j) →
    headerLookup (l.foldl connTokenStep acc) j = headerLookup acc j := by
  induction l with
  | nil => intro acc j _; rfl
  | cons x xs ih =>
    intro acc j hj
    rw [List.foldl_cons, ih _ _ fun f hf => hj f (List.mem_cons_of_mem x hf)]
    unfold connTokenStep headerDel
    split
    · rw [headerLookup_erase,
        if_neg fun h => hj x (List.mem_cons_self x xs) (by assumption) h.symm]
    · rfl

/-- The hop fold does not touch keys outside the canonicalized hop set. -/
lemma hopFold_preserves (l : List (List Char)) : ∀ (acc : Header) (j : List Char),
    (∀ k ∈ l, canonicalKey k ≠ j) →
    headerLookup (l.foldl hopStep acc) j = headerLookup acc j := by
  induction l with
  | nil => intro acc j _; rfl
  | cons x xs ih =>
    intro acc j hj
    rw [List.foldl_cons, ih _ _ fun k hk => hj k (List.mem_cons_of_mem x hk)]
    unfold hopStep headerDel
    split
    · rw [headerLookup_erase, if_neg fun h => hj x (List.mem_cons_self x xs) h.symm]
    · rfl

/-- The hop-by-hop header names are already in canonical form. -/
lemma hopHeaders_canonical : ∀ k ∈ hopHeaders, canonicalKey k = k := by decide

/-- The key `User-Agent` is already in canonical form. -/
lemma userAgentCanonical : canonicalKey (gs "User-Agent") = gs "User-Agent" := by decide

end ZapProxy

/-! ### Claim theorems -/

/-- C4 (counterexample): a hop-by-hop header that is present with an empty
first value is NOT deleted: `removeHeaders` only deletes a hop-by-hop header
when its `Get` value is non-empty, so `Upgrade: ""` survives even though
`Upgrade` is in the fixed hop-by-hop set. -/
theorem C4_empty_value_hop_header_survives :
    ZapProxy.removeHeaders [(ZapProxy.gs "Upgrade", [[]])] =
      [(ZapProxy.gs "Upgrade", [[]])] ∧
    ZapProxy.gs "Upgrade" ∈ ZapProxy.hopHeaders ∧
    ZapProxy.headerLookup (ZapProxy.removeHeaders [(ZapProxy.gs "Upgrade", [[]])])
      (ZapProxy.gs "Upgrade") = some [[]] :=
  ⟨rfl, by decide, rfl⟩

/-- C4 (amended): `removeHeaders` deletes the entry stored under the
canonicalized name of every trimmed non-empty comma-token of the
`Connection` value, deletes every fixed hop-by-hop header whose first value
in the input is non-empty, and deletes no other entry (a hop-by-hop header
present with an empty first value and not named in `Connection` is kept). -/
theorem C4_remove_headers (h : ZapProxy.Header) :
    (∀ f ∈ ZapProxy.splitComma (ZapProxy.headerGet h (ZapProxy.gs "Connection")),
      ZapProxy.trimSpace f ≠ [] →
      ZapProxy.headerLookup (ZapProxy.removeHeaders h)
        (ZapProxy.canonicalKey (ZapProxy.trimSpace f)) = none) ∧
    (∀ k ∈ ZapProxy.hopHeaders, ZapProxy.headerGet h k ≠ [] →
      ZapProxy.headerLookup (ZapProxy.removeHeaders h) k = none) ∧
    (∀ j : List Char,
      (∀ f ∈ ZapProxy.splitComma (ZapProxy.headerGet h (ZapProxy.gs "Connection")),
        ZapProxy.trimSpace f ≠ [] → ZapProxy.canonicalKey (ZapProxy.trimSpace f) ≠ j) →
      j ∉ ZapProxy.hopHeaders →
      ZapProxy.headerLookup (ZapProxy.removeHeaders h) j = ZapProxy.headerLookup h j) := by
  refine ⟨?_, ?_, ?_⟩
  · intro f hf htrim
    by_cases hc : ZapProxy.headerGet h (ZapProxy.gs "Connection") ≠ []
    · simp only [ZapProxy.removeHeaders, if_pos hc]
      apply ZapProxy.hopFold_none
      exact ZapProxy.connTokenFold_deletes _ _ f hf htrim
    · have hc2 : ZapProxy.headerGet h (ZapProxy.gs "Connection") = [] := not_ne_iff.mp hc
      rw [hc2] at hf
      have hfe : f = [] := by
        simpa [ZapProxy.splitComma, ZapProxy.splitCommaAux] using hf
      subst hfe
      exact absurd rfl htrim
  · intro k hk hget
    have hcanon := ZapProxy.hopHeaders_canonical k hk
    rw [← hcanon]
    by_cases hc : ZapProxy.headerGet h (ZapProxy.gs "Connection") ≠ []
    · simp only [ZapProxy.removeHeaders, if_pos hc]
      rcases ZapProxy.connTokenFold_or
          (ZapProxy.splitComma (ZapProxy.headerGet h (ZapProxy.gs "Connection"))) h
          (ZapProxy.canonicalKey k) with heq | hnone
      · apply ZapProxy.hopFold_deletes _ _ k hk
        refine Or.inr ?_
        rw [ZapProxy.headerGet_congr _ h k heq]
        exact hget
      · exact ZapProxy.hopFold_none _ _ _ hnone
    · simp only [ZapProxy.removeHeaders, if_neg hc]
      exact ZapProxy.hopFold_deletes _ _ k hk (Or.inr hget)
  · intro j htok hhop
    have hhop2 : ∀ k ∈ ZapProxy.hopHeaders, ZapProxy.canonicalKey k ≠ j := by
      intro k hk
      rw [ZapProxy.hopHeaders_canonical k hk]
      exact fun h2 => hhop (h2 ▸ hk)
    by_cases hc : ZapProxy.headerGet h (ZapProxy.gs "Connection") ≠ []
    · simp only [ZapProxy.removeHeaders, if_pos hc]
      rw [ZapProxy.hopFold_preserves _ _ _ hhop2]
      exact ZapProxy.connTokenFold_preserves _ _ _ htok
    · simp only [ZapProxy.removeHeaders, if_neg hc]
      exact ZapProxy.hopFold_preserves _ _ _ hhop2

/-- C4 (witness): on a concrete header map, the `Connection`-named `Foo` and
the hop-by-hop `Upgrade` are deleted, while `X-Keep` survives unchanged. -/
theorem C4_remove_headers_witness :
    ZapProxy.headerLookup
      (ZapProxy.removeHeaders
        [(ZapProxy.gs "Connection", [ZapProxy.gs "Foo"]),
         (ZapProxy.gs "Foo", [ZapProxy.gs "1"]),
         (ZapProxy.gs "Upgrade", [ZapProxy.gs "ws"]),
         (ZapProxy.gs "X-Keep", [ZapProxy.gs "v"])])
      (ZapProxy.canonicalKey (ZapProxy.trimSpace (ZapProxy.gs "Foo"))) = none ∧
    ZapProxy.headerLookup
      (ZapProxy.removeHeaders
        [(ZapProxy.gs "Connection", [ZapProxy.gs "Foo"]),
         (ZapProxy.gs "Foo", [ZapProxy.gs "1"]),
         (ZapProxy.gs "Upgrade", [ZapProxy.gs "ws"]),
         (ZapProxy.gs "X-Keep", [ZapProxy.gs "v"])])
      (ZapProxy.gs "Upgrade") = none ∧
    ZapProxy.headerLookup
      (ZapProxy.removeHeaders
        [(ZapProxy.gs "Connection", [ZapProxy.gs "Foo"]),
         (ZapProxy.gs "Foo", [ZapProxy.gs "1"]),
         (ZapProxy.gs "Upgrade", [ZapProxy.gs "ws"]),
         (ZapProxy.gs "X-Keep", [ZapProxy.gs "v"])])
      (ZapProxy.gs "X-Keep") =
    ZapProxy.headerLookup
      [(ZapProxy.gs "Connection", [ZapProxy.gs "Foo"]),
       (ZapProxy.gs "Foo", [ZapProxy.gs "1"]),
       (ZapProxy.gs "Upgrade", [ZapProxy.gs "ws"]),
       (ZapProxy.gs "X-Keep", [ZapProxy.gs "v"])]
      (ZapProxy.gs "X-Keep") :=
  ⟨(C4_remove_headers _).1 (ZapProxy.gs "Foo") (by decide) (by decide),
   (C4_remove_headers _).2.1 (ZapProxy.gs "Upgrade") (by decide) (by decide),
   (C4_remove_headers _).2.2 (ZapProxy.gs "X-Keep") (by decide) (by decide)⟩

/-- C9 (counterexample): on a request carrying no `User-Agent` header, the
director sets the `User-Agent` header to the EMPTY string, not to a
non-empty value: the key becomes present but its value is `""`. -/
theorem C9_director_sets_empty_user_agent :
    ZapProxy.headerHasKey
      (⟨⟨ZapProxy.gs "", ZapProxy.gs "in.example", ZapProxy.gs "/dir", ZapProxy.gs ""⟩,
        ZapProxy.gs "in.example", []⟩ : ZapProxy.Request).header
      (ZapProxy.gs "User-Agent") = false ∧
    ZapProxy.headerHasKey
      (ZapProxy.director
        ⟨ZapProxy.gs "http", ZapProxy.gs "example.com", ZapProxy.gs "/base", ZapProxy.gs ""⟩
        ⟨⟨ZapProxy.gs "", ZapProxy.gs "in.example", ZapProxy.gs "/dir", ZapProxy.gs ""⟩,
          ZapProxy.gs "in.example", []⟩).header
      (ZapProxy.gs "User-Agent") = true ∧
    ZapProxy.headerGet
      (ZapProxy.director
        ⟨ZapProxy.gs "http", ZapProxy.gs "example.com", ZapProxy.gs "/base", ZapProxy.gs ""⟩
        ⟨⟨ZapProxy.gs "", ZapProxy.gs "in.example", ZapProxy.gs "/dir", ZapProxy.gs ""⟩,
          ZapProxy.gs "in.example", []⟩).header
      (ZapProxy.gs "User-Agent") = [] :=
  ⟨rfl, rfl, rfl⟩

/-- C9 (amended): on every request without a raw `User-Agent` key, the
director adds a `User-Agent` entry whose value is the empty string (present
but empty), and forces the outbound `Host` to the rewritten URL's host,
which is the target's host. -/
theorem C9_director_user_agent_and_host (target : ZapProxy.URL) (req : ZapProxy.Request)
    (h : ZapProxy.headerHasKey req.header (ZapProxy.gs "User-Agent") = false) :
    (ZapProxy.director target req).header =
      ZapProxy.headerSet req.header (ZapProxy.gs "User-Agent") [] ∧
    ZapProxy.headerLookup (ZapProxy.director target req).header
      (ZapProxy.gs "User-Agent") = some [[]] ∧
    ZapProxy.headerGet (ZapProxy.director target req).header
      (ZapProxy.gs "User-Agent") = [] ∧
    (ZapProxy.director target req).host = (ZapProxy.director target req).url.host ∧
    (ZapProxy.director target req).url.host = target.host := by
  refine ⟨?_, ?_, ?_, rfl, rfl⟩
  · simp [ZapProxy.director, h]
  · simp [ZapProxy.director, h, ZapProxy.headerSet, ZapProxy.headerLookup,
      ZapProxy.userAgentCanonical]
  · simp [ZapProxy.director, h, ZapProxy.headerSet, ZapProxy.headerGet,
      ZapProxy.headerLookup, ZapProxy.userAgentCanonical]

/-- C9 (witness): the amended theorem at a concrete target and request. -/
theorem C9_director_user_agent_and_host_witness :
    (ZapProxy.director
        ⟨ZapProxy.gs "http", ZapProxy.gs "t.example", ZapProxy.gs "/base", ZapProxy.gs "a=1"⟩
        ⟨⟨ZapProxy.gs "", ZapProxy.gs "in.example", ZapProxy.gs "/dir", ZapProxy.gs "b=2"⟩,
          ZapProxy.gs "in.example", [(ZapProxy.gs "Accept", [ZapProxy.gs "*"])]⟩).header =
      ZapProxy.headerSet [(ZapProxy.gs "Accept", [ZapProxy.gs "*"])]
        (ZapProxy.gs "User-Agent") [] ∧
    ZapProxy.headerLookup
      (ZapProxy.director
        ⟨ZapProxy.gs "http", ZapProxy.gs "t.example", ZapProxy.gs "/base", ZapProxy.gs "a=1"⟩
        ⟨⟨ZapProxy.gs "", ZapProxy.gs "in.example", ZapProxy.gs "/dir", ZapProxy.gs "b=2"⟩,
          ZapProxy.gs "in.example", [(ZapProxy.gs "Accept", [ZapProxy.gs "*"])]⟩).header
      (ZapProxy.gs "User-Agent") = some [[]] ∧
    ZapProxy.headerGet
      (ZapProxy.director
        ⟨ZapProxy.gs "http", ZapProxy.gs "t.example", ZapProxy.gs "/base", ZapProxy.gs "a=1"⟩
        ⟨⟨ZapProxy.gs "", ZapProxy.gs "in.example", ZapProxy.gs "/dir", ZapProxy.gs "b=2"⟩,
          ZapProxy.gs "in.example", [(ZapProxy.gs "Accept", [ZapProxy.gs "*"])]⟩).header
      (ZapProxy.gs "User-Agent") = [] ∧
    (ZapProxy.director
        ⟨ZapProxy.gs "http", ZapProxy.gs "t.example", ZapProxy.gs "/base", ZapProxy.gs "a=1"⟩
        ⟨⟨ZapProxy.gs "", ZapProxy.gs "in.example", ZapProxy.gs "/dir", ZapProxy.gs "b=2"⟩,
          ZapProxy.gs "in.example", [(ZapProxy.gs "Accept", [ZapProxy.gs "*"])]⟩).host =
      (ZapProxy.director
        ⟨ZapProxy.gs "http", ZapProxy.gs "t.example", ZapProxy.gs "/base", ZapProxy.gs "a=1"⟩
        ⟨⟨ZapProxy.gs "", ZapProxy.gs "in.example", ZapProxy.gs "/dir", ZapProxy.gs "b=2"⟩,
          ZapProxy.gs "in.example", [(ZapProxy.gs "Accept", [ZapProxy.gs "*"])]⟩).url.host ∧
    (ZapProxy.director
        ⟨ZapProxy.gs "http", ZapProxy.gs "t.example", ZapProxy.gs "/base", ZapProxy.gs "a=1"⟩
        ⟨⟨ZapProxy.gs "", ZapProxy.gs "in.example", ZapProxy.gs "/dir", ZapProxy.gs "b=2"⟩,
          ZapProxy.gs "in.example", [(ZapProxy.gs "Accept", [ZapProxy.gs "*"])]⟩).url.host =
      ZapProxy.gs "t.example" :=
  C9_director_user_agent_and_host
    ⟨ZapProxy.gs "http", ZapProxy.gs "t.example", ZapProxy.gs "/base", ZapProxy.gs "a=1"⟩
    ⟨⟨ZapProxy.gs "", ZapProxy.gs "in.example", ZapProxy.gs "/dir", ZapProxy.gs "b=2"⟩,
      ZapProxy.gs "in.example", [(ZapProxy.gs "Accept", [ZapProxy.gs "*"])]⟩
    (by decide)

/-- C5 (counterexample): the claim quantifies over every target base path and
inbound path, but `singleJoiningSlash "/base" "//dir"` yields `"/base//dir"`,
which has two separating slashes at the junction, not exactly one. -/
theorem C5_two_slashes_at_junction :
    ZapProxy.singleJoiningSlash (ZapProxy.gs "/base") (ZapProxy.gs "//dir") =
      ZapProxy.gs "/base//dir" ∧
    ZapProxy.goContains
      (ZapProxy.singleJoiningSlash (ZapProxy.gs "/base") (ZapProxy.gs "//dir"))
      (ZapProxy.gs "//") = true := by
  constructor
  · rfl
  · rfl

/-- C5 (amended): for a target base path with at most one trailing slash and
an inbound path with at most one leading slash, `singleJoiningSlash` returns
the base stripped of its trailing slash, exactly one slash, and the inbound
path stripped of its leading slash — i.e. exactly one separating slash at
the junction. -/
theorem C5_single_joining_slash (a b : List Char)
    (h1 : (ZapProxy.stripTrailingSlash a).getLast? ≠ some (Char.ofNat 47))
    (h2 : (ZapProxy.stripLeadingSlash b).head? ≠ some (Char.ofNat 47)) :
    ZapProxy.singleJoiningSlash a b =
      ZapProxy.stripTrailingSlash a ++ Char.ofNat 47 :: ZapProxy.stripLeadingSlash b ∧
    (ZapProxy.stripTrailingSlash a).getLast? ≠ some (Char.ofNat 47) ∧
    (ZapProxy.stripLeadingSlash b).head? ≠ some (Char.ofNat 47) := by
  refine ⟨?_, h1, h2⟩
  by_cases ha : a.getLast? = some (Char.ofNat 47) <;>
    by_cases hb : b.head? = some (Char.ofNat 47)
  · rcases List.eq_nil_or_concat a with rfl | ⟨as, c, rfl⟩
    · simp at ha
    · have hc : c = Char.ofNat 47 := by
        simpa [List.getLast?_concat] using ha
      subst hc
      cases b with
      | nil => simp at hb
      | cons d bs =>
        have hd : d = Char.ofNat 47 := by simpa using hb
        subst hd
        simp [ZapProxy.singleJoiningSlash, ZapProxy.stripTrailingSlash,
          ZapProxy.stripLeadingSlash, ha, hb, List.dropLast_concat]
  · rcases List.eq_nil_or_concat a with rfl | ⟨as, c, rfl⟩
    · simp at ha
    · have hc : c = Char.ofNat 47 := by
        simpa [List.getLast?_concat] using ha
      subst hc
      simp [ZapProxy.singleJoiningSlash, ZapProxy.stripTrailingSlash,
        ZapProxy.stripLeadingSlash, ha, hb, List.dropLast_concat]
  · cases b with
    | nil => simp at hb
    | cons d bs =>
      have hd : d = Char.ofNat 47 := by simpa using hb
      subst hd
      simp [ZapProxy.singleJoiningSlash, ZapProxy.stripTrailingSlash,
        ZapProxy.stripLeadingSlash, ha, hb]
  · simp [ZapProxy.singleJoiningSlash, ZapProxy.stripTrailingSlash,
      ZapProxy.stripLeadingSlash, ha, hb]

/-- C5 (witness): the amended theorem applied to `"/base/"` and `"/dir"`. -/
theorem C5_single_joining_slash_witness :
    ZapProxy.singleJoiningSlash (ZapProxy.gs "/base/") (ZapProxy.gs "/dir") =
      ZapProxy.stripTrailingSlash (ZapProxy.gs "/base/") ++
        Char.ofNat 47 :: ZapProxy.stripLeadingSlash (ZapProxy.gs "/dir") ∧
    (ZapProxy.stripTrailingSlash (ZapProxy.gs "/base/")).getLast? ≠ some (Char.ofNat 47) ∧
    (ZapProxy.stripLeadingSlash (ZapProxy.gs "/dir")).head? ≠ some (Char.ofNat 47) :=
  C5_single_joining_slash (ZapProxy.gs "/base/") (ZapProxy.gs "/dir")
    (by decide) (by decide)

/-- C6: the director's query merge returns the other query verbatim when
either side is empty, and otherwise the target query, `&`, and the inbound
query in that order. -/
theorem C6_query_merge (t r : List Char) :
    (t = [] → ZapProxy.mergeRawQuery t r = r) ∧
    (r = [] → ZapProxy.mergeRawQuery t r = t) ∧
    (t ≠ [] → r ≠ [] → ZapProxy.mergeRawQuery t r = t ++ Char.ofNat 38 :: r) := by
  refine ⟨?_, ?_, ?_⟩
  · intro h
    simp [ZapProxy.mergeRawQuery, h]
  · intro h
    simp [ZapProxy.mergeRawQuery, h]
  · intro ht hr
    simp [ZapProxy.mergeRawQuery, ht, hr]

/-- C6 (witness): target `a=10` with inbound `b=100` yields `a=10&b=100`,
and an empty target with inbound `x=1` yields `x=1`. -/
theorem C6_query_merge_witness :
    ZapProxy.mergeRawQuery (ZapProxy.gs "a=10") (ZapProxy.gs "b=100") =
      ZapProxy.gs "a=10" ++ Char.ofNat 38 :: ZapProxy.gs "b=100" ∧
    ZapProxy.mergeRawQuery (ZapProxy.gs "") (ZapProxy.gs "x=1") = ZapProxy.gs "x=1" :=
  ⟨(C6_query_merge (ZapProxy.gs "a=10") (ZapProxy.gs "b=100")).2.2
      (by decide) (by decide),
   (C6_query_merge (ZapProxy.gs "") (ZapProxy.gs "x=1")).1 rfl⟩

/-- C8: `CompareCredentials` is true exactly when both the username and the
password agree byte-for-byte with the expected values; in particular a
length mismatch on either component never returns true. -/
theorem C8_compare_credentials (iu ip eu ep : List Nat) :
    (ZapAuth.CompareCredentials iu ip eu ep = true ↔ iu = eu ∧ ip = ep) ∧
    (iu.length ≠ eu.length ∨ ip.length ≠ ep.length →
      ZapAuth.CompareCredentials iu ip eu ep = false) := by
  have hmain : ZapAuth.CompareCredentials iu ip eu ep = true ↔ iu = eu ∧ ip = ep := by
    simp [ZapAuth.CompareCredentials, ZapAuth.ctc_eq_one_iff]
  refine ⟨hmain, ?_⟩
  intro h
  cases hcc : ZapAuth.CompareCredentials iu ip eu ep
  · rfl
  · exfalso
    have heq := hmain.mp hcc
    rcases h with h | h
    · exact h (heq.1 ▸ rfl)
    · exact h (heq.2 ▸ rfl)

/-- C8 (witness): a username whose length differs from the expected one is
rejected. -/
theorem C8_compare_credentials_witness :
    ZapAuth.CompareCredentials (ZapAuth.gostr "a") (ZapAuth.gostr "b")
      (ZapAuth.gostr "ab") (ZapAuth.gostr "b") = false :=
  (C8_compare_credentials (ZapAuth.gostr "a") (ZapAuth.gostr "b")
    (ZapAuth.gostr "ab") (ZapAuth.gostr "b")).2 (Or.inl (by decide))

/-- C10: `isClosedConnError` is false on nil, true on end-of-file,
closed-pipe and unexpected-EOF, true on any error whose message contains one
of the recognized connection-closed phrases, and false on the unrelated
message `some other error`. -/
theorem C10_closed_conn_classification :
    ZapProxy.isClosedConnError .nilErr = false ∧
    ZapProxy.isClosedConnError .eof = true ∧
    ZapProxy.isClosedConnError .errClosedPipe = true ∧
    ZapProxy.isClosedConnError .errUnexpectedEOF = true ∧
    (∀ m, ZapProxy.goContains m (ZapProxy.gs "connection reset by peer") = true →
      ZapProxy.isClosedConnError (.errStr m) = true) ∧
    (∀ m, ZapProxy.goContains m (ZapProxy.gs "use of closed network connection") = true →
      ZapProxy.isClosedConnError (.errStr m) = true) ∧
    (∀ m, ZapProxy.goContains m (ZapProxy.gs "broken pipe") = true →
      ZapProxy.isClosedConnError (.errStr m) = true) ∧
    (∀ m, ZapProxy.goContains m (ZapProxy.gs "i/o timeout") = true →
      ZapProxy.isClosedConnError (.errStr m) = true) ∧
    ZapProxy.isClosedConnError (.errStr (ZapProxy.gs "some other error")) = false := by
  refine ⟨rfl, rfl, rfl, rfl, ?_, ?_, ?_, ?_, by decide⟩ <;>
    · intro m h
      simp [ZapProxy.isClosedConnError, ZapProxy.closedConnStringCheck, h]

/-- C1 (code evaluation at the failing input): with configured credentials
`zaproxy`/`zaproxy`, a request presenting the correct username `zaproxy`
with the wrong password `wrong` (token `Basic emFwcm94eTp3cm9uZw==`) decodes
successfully (`ok = true`), yet the handler does not write 401 and forwards
the request, because the source rejects only when BOTH components mismatch
(`username != lname && password != lpass`). -/
theorem C1_wrong_password_not_rejected :
    (ZapAuth.getBasicAuth [] 0 (ZapAuth.gostr "Basic emFwcm94eTp3cm9uZw==")).ok = true ∧
    (ZapAuth.getBasicAuth [] 0 (ZapAuth.gostr "Basic emFwcm94eTp3cm9uZw==")).username =
      ZapAuth.gostr "zaproxy" ∧
    (ZapAuth.getBasicAuth [] 0 (ZapAuth.gostr "Basic emFwcm94eTp3cm9uZw==")).password =
      ZapAuth.gostr "wrong" ∧
    (ZapAuth.startServerHandler (ZapAuth.gostr "zaproxy") (ZapAuth.gostr "zaproxy") [] 0
        (ZapAuth.gostr "Basic emFwcm94eTp3cm9uZw==") true).map ZapAuth.HandlerTrace.wrote401 =
      some false ∧
    (ZapAuth.startServerHandler (ZapAuth.gostr "zaproxy") (ZapAuth.gostr "zaproxy") [] 0
        (ZapAuth.gostr "Basic emFwcm94eTp3cm9uZw==") true).map ZapAuth.HandlerTrace.forwarded =
      some true := by
  refine ⟨rfl, rfl, rfl, ?_, ?_⟩ <;> rfl

/-- C2: whenever the credential check fails (either `ok = false`, or
`ok = true` with both components differing so the 401 branch fires), the
handler writes the 401 response and still forwards the request upstream. -/
theorem C2_failed_auth_still_forwards (u p : List Nat) (c : ZapAuth.AuthCacheMap)
    (now : Nat) (auth : List Nat)
    (h : (ZapAuth.getBasicAuth c now auth).ok = false ∨
      ((ZapAuth.getBasicAuth c now auth).ok = true ∧
       u ≠ (ZapAuth.getBasicAuth c now auth).username ∧
       p ≠ (ZapAuth.getBasicAuth c now auth).password)) :
    ZapAuth.startServerHandler u p c now auth true =
      some ⟨true, true, (ZapAuth.getBasicAuth c now auth).cache⟩ := by
  unfold ZapAuth.startServerHandler
  rcases h with h | ⟨h1, h2, h3⟩
  · simp [h]
  · simp [h1, h2, h3]

/-- C2 (witness): a request with no `Proxy-Authorization` header fails the
check, gets the 401, and is still forwarded. -/
theorem C2_failed_auth_still_forwards_witness :
    ZapAuth.startServerHandler (ZapAuth.gostr "zaproxy") (ZapAuth.gostr "zaproxy") [] 0 [] true =
      some ⟨true, true, (ZapAuth.getBasicAuth [] 0 []).cache⟩ :=
  C2_failed_auth_still_forwards (ZapAuth.gostr "zaproxy") (ZapAuth.gostr "zaproxy") [] 0 []
    (Or.inl (by decide))

/-- C3: for a token with a cache entry, a lookup at or after `expireAt` is
never served from the cache, while any two lookups strictly before
`expireAt` return identical results, do not re-decode the token, and leave
the cache unchanged. -/
theorem C3_cache_ttl (c : ZapAuth.AuthCacheMap) (auth : List Nat) (e : ZapAuth.AuthEntry)
    (now1 now2 : Nat) (hne : auth ≠ []) (hl : ZapAuth.lookupAuth c auth = some e) :
    (e.expireAt ≤ now1 → (ZapAuth.getBasicAuth c now1 auth).usedCache = false) ∧
    (now1 < e.expireAt → now2 < e.expireAt →
      ZapAuth.getBasicAuth c now1 auth = ZapAuth.getBasicAuth c now2 auth ∧
      (ZapAuth.getBasicAuth c now1 auth).didDecode = false ∧
      (ZapAuth.getBasicAuth c now1 auth).cache = c) := by
  constructor
  · intro hexp
    have hlt : ¬ now1 < e.expireAt := not_lt.mpr hexp
    cases hpo : (ZapAuth.parseBasicAuth auth).2.2 <;>
      simp [ZapAuth.getBasicAuth, hne, hl, hlt, ZapAuth.getBasicAuthMiss, hpo]
  · intro h1 h2
    cases hv : e.valid <;>
      simp [ZapAuth.getBasicAuth, hne, hl, h1, h2, hv]

/-- C3 (witness): a concrete cache with one entry expiring at time 100:
served identically at times 5 and 7, never served at time 200. -/
theorem C3_cache_ttl_witness :
    (ZapAuth.getBasicAuth
      [(ZapAuth.gostr "tok", ⟨true, ZapAuth.gostr "u", ZapAuth.gostr "p", 100⟩)] 200
      (ZapAuth.gostr "tok")).usedCache = false ∧
    (ZapAuth.getBasicAuth
        [(ZapAuth.gostr "tok", ⟨true, ZapAuth.gostr "u", ZapAuth.gostr "p", 100⟩)] 5
        (ZapAuth.gostr "tok") =
      ZapAuth.getBasicAuth
        [(ZapAuth.gostr "tok", ⟨true, ZapAuth.gostr "u", ZapAuth.gostr "p", 100⟩)] 7
        (ZapAuth.gostr "tok") ∧
     (ZapAuth.getBasicAuth
        [(ZapAuth.gostr "tok", ⟨true, ZapAuth.gostr "u", ZapAuth.gostr "p", 100⟩)] 5
        (ZapAuth.gostr "tok")).didDecode = false ∧
     (ZapAuth.getBasicAuth
        [(ZapAuth.gostr "tok", ⟨true, ZapAuth.gostr "u", ZapAuth.gostr "p", 100⟩)] 5
        (ZapAuth.gostr "tok")).cache =
      [(ZapAuth.gostr "tok", ⟨true, ZapAuth.gostr "u", ZapAuth.gostr "p", 100⟩)]) :=
  ⟨(C3_cache_ttl _ _ ⟨true, ZapAuth.gostr "u", ZapAuth.gostr "p", 100⟩ 200 0
      (by decide) (by decide)).1 (by decide),
   (C3_cache_ttl _ _ ⟨true, ZapAuth.gostr "u", ZapAuth.gostr "p", 100⟩ 5 7
      (by decide) (by decide)).2 (by decide) (by decide)⟩

/-- C7: the credential validator rejects every malformed token: an empty
token returns `ok = false` at once without reading or writing the cache and
without decoding; a token shorter than the `Basic ` prefix or whose first
six bytes do not case-insensitively equal `Basic `, a remainder that is not
valid standard base64, decoded bytes without a colon, or a parsed
username/password violating the format constraints (empty username,
username longer than 64 bytes, password longer than 128 bytes, or a NUL, LF
or CR byte in either) all yield `ok = false`. -/
theorem C7_malformed_tokens_rejected :
    (∀ (c : ZapAuth.AuthCacheMap) (now : Nat),
      ZapAuth.getBasicAuth c now [] = ⟨[], [], false, c, false, false⟩) ∧
    (∀ auth : List Nat,
      auth.length < 6 ∨ ZapAuth.asciiEqFold (auth.take 6) ZapAuth.basicPrefixBytes = false →
      ZapAuth.parseBasicAuth auth = ([], [], false)) ∧
    (∀ auth : List Nat, ZapAuth.decodeBase64 (auth.drop 6) = none →
      ZapAuth.parseBasicAuth auth = ([], [], false)) ∧
    (∀ (auth cs : List Nat), ZapAuth.decodeBase64 (auth.drop 6) = some cs →
      ZapAuth.cutColon cs = none →
      ZapAuth.parseBasicAuth auth = ([], [], false)) ∧
    (∀ (auth cs u p : List Nat), ZapAuth.decodeBase64 (auth.drop 6) = some cs →
      ZapAuth.cutColon cs = some (u, p) →
      (u = [] ∨ 64 < u.length ∨ 128 < p.length ∨
        (∃ b ∈ u, b = 0 ∨ b = 10 ∨ b = 13) ∨ (∃ b ∈ p, b = 0 ∨ b = 10 ∨ b = 13)) →
      ZapAuth.parseBasicAuth auth = ([], [], false)) := by
  have hinvalid : ∀ u p : List Nat,
      (u = [] ∨ 64 < u.length ∨ 128 < p.length ∨
        (∃ b ∈ u, b = 0 ∨ b = 10 ∨ b = 13) ∨ (∃ b ∈ p, b = 0 ∨ b = 10 ∨ b = 13)) →
      ZapAuth.isValidCredentials u p = false := by
    intro u p h
    rcases h with rfl | h | h | ⟨b, hb, hb3⟩ | ⟨b, hb, hb3⟩
    · simp [ZapAuth.isValidCredentials]
    · simp [ZapAuth.isValidCredentials, Nat.not_le.mpr h]
    · simp [ZapAuth.isValidCredentials, Nat.not_le.mpr h]
    · simp only [ZapAuth.isValidCredentials, Bool.and_eq_false_iff]
      refine Or.inl (Or.inr ?_)
      simp only [Bool.not_eq_false', List.any_eq_true]
      exact ⟨b, hb, by rcases hb3 with rfl | rfl | rfl <;> decide⟩
    · simp only [ZapAuth.isValidCredentials, Bool.and_eq_false_iff]
      refine Or.inr ?_
      simp only [Bool.not_eq_false', List.any_eq_true]
      exact ⟨b, hb, by rcases hb3 with rfl | rfl | rfl <;> decide⟩
  refine ⟨?_, ?_, ?_, ?_, ?_⟩
  · intro c now
    simp [ZapAuth.getBasicAuth]
  · intro auth h
    rcases h with h | h
    · simp [ZapAuth.parseBasicAuth, h]
    · by_cases hlen : auth.length < 6
      · simp [ZapAuth.parseBasicAuth, hlen]
      · simp [ZapAuth.parseBasicAuth, hlen, h]
  · intro auth h
    by_cases hlen : auth.length < 6
    · simp [ZapAuth.parseBasicAuth, hlen]
    · by_cases hf : ZapAuth.asciiEqFold (auth.take 6) ZapAuth.basicPrefixBytes
      · simp [ZapAuth.parseBasicAuth, hlen, hf, h]
      · simp [ZapAuth.parseBasicAuth, hlen, hf]
  · intro auth cs hdec hcut
    by_cases hlen : auth.length < 6
    · simp [ZapAuth.parseBasicAuth, hlen]
    · by_cases hf : ZapAuth.asciiEqFold (auth.take 6) ZapAuth.basicPrefixBytes
      · simp [ZapAuth.parseBasicAuth, hlen, hf, hdec, hcut]
      · simp [ZapAuth.parseBasicAuth, hlen, hf]
  · intro auth cs u p hdec hcut hbad
    by_cases hlen : auth.length < 6
    · simp [ZapAuth.parseBasicAuth, hlen]
    · by_cases hf : ZapAuth.asciiEqFold (auth.take 6) ZapAuth.basicPrefixBytes
      · simp [ZapAuth.parseBasicAuth, hlen, hf, hdec, hcut, hinvalid u p hbad]
      · simp [ZapAuth.parseBasicAuth, hlen, hf]

/-- C7 (witness): an empty token leaves a concrete cache untouched; a
`Bearer` token, an invalid-base64 token, a token without a colon, and a
token with an empty username are all rejected. -/
theorem C7_malformed_tokens_rejected_witness :
    ZapAuth.getBasicAuth
        [(ZapAuth.gostr "k", ⟨true, ZapAuth.gostr "u", ZapAuth.gostr "p", 9⟩)] 3 [] =
      ⟨[], [], false,
        [(ZapAuth.gostr "k", ⟨true, ZapAuth.gostr "u", ZapAuth.gostr "p", 9⟩)], false, false⟩ ∧
    ZapAuth.parseBasicAuth (ZapAuth.gostr "Bearer xyz") = ([], [], false) ∧
    ZapAuth.parseBasicAuth (ZapAuth.gostr "Basic !!!!") = ([], [], false) ∧
    ZapAuth.parseBasicAuth (ZapAuth.gostr "Basic YWJj") = ([], [], false) ∧
    ZapAuth.parseBasicAuth (ZapAuth.gostr "Basic OnB3") = ([], [], false) :=
  ⟨C7_malformed_tokens_rejected.1 _ 3,
   C7_malformed_tokens_rejected.2.1 _ (Or.inr (by decide)),
   C7_malformed_tokens_rejected.2.2.1 _ (by decide),
   C7_malformed_tokens_rejected.2.2.2.1 _ [97, 98, 99] (by decide) (by decide),
   C7_malformed_tokens_rejected.2.2.2.2 _ [58, 112, 119] [] [112, 119]
     (by decide) (by decide) (Or.inl rfl)⟩

/-- C10 (witness): the recognized phrases themselves are classified as
closed-connection errors. -/
theorem C10_closed_conn_classification_witness :
    ZapProxy.isClosedConnError (.errStr (ZapProxy.gs "connection reset by peer")) = true ∧
    ZapProxy.isClosedConnError (.errStr (ZapProxy.gs "use of closed network connection")) = true ∧
    ZapProxy.isClosedConnError (.errStr (ZapProxy.gs "broken pipe")) = true ∧
    ZapProxy.isClosedConnError (.errStr (ZapProxy.gs "i/o timeout")) = true :=
  ⟨C10_closed_conn_classification.2.2.2.2.1 _ (by decide),
   C10_closed_conn_classification.2.2.2.2.2.1 _ (by decide),
   C10_closed_conn_classification.2.2.2.2.2.2.1 _ (by decide),
   C10_closed_conn_classification.2.2.2.2.2.2.2.1 _ (by decide)⟩
